import Mathlib

set_option maxRecDepth 8000

/-!
A shallow embedding of the client event engine in `csrc/lib/ccn_client.c`
(the CCN client library core).  Pure data is modelled directly; the external
collaborators named out of scope by the specification (the binary wire codec,
the charbuf/indexbuf/hashtb utilities, the crypto primitives, the operating
system, and the user upcalls) appear as oracle fields of an `Env` record or
as decoded views carried alongside raw bytes.  Machine integers are modelled
with `Int`; the only place where C `int` range matters is the microsecond
delta of `ccn_age_interest`, and the theorems below establish the bounds.
Line numbers in comments refer to `csrc/lib/ccn_client.c`.
-/

/-- A `struct timeval` (seconds, microseconds). -/
structure Timeval where
  sec : Int
  usec : Int
deriving DecidableEq

/-- The upcall kinds of `enum ccn_upcall_kind` (see spec section 6). -/
inductive UpcallKind where
  | FINAL
  | INTEREST
  | CONSUMED_INTEREST
  | CONTENT
  | CONTENT_UNVERIFIED
  | CONTENT_BAD
  | INTEREST_TIMED_OUT
deriving DecidableEq

/-- The upcall results of `enum ccn_upcall_res`. -/
inductive UpcallRes where
  | OK
  | ERR
  | REEXPRESS
  | INTEREST_CONSUMED
  | VERIFY
deriving DecidableEq

/-- The magic sentinel 0x7059e5f4 placed on `expressed_interest` records. -/
def MAGIC : Int := 0x7059e5f4

/-- errno EINVAL (value from the system headers, which are not part of src/). -/
def EINVAL : Int := 22

/-- errno EAGAIN. -/
def EAGAIN : Int := 11

/-- errno EBUSY. -/
def EBUSY : Int := 16

/-- errno ENOTCONN. -/
def ENOTCONN : Int := 107

/-- Modelled from the spec: `CCN_INTEREST_LIFETIME_MICROSEC` comes from the
ccn headers, which are not under src/; the spec calls it `LIFETIME`, the
protocol-constant maximum age of an outstanding Interest in microseconds.
The historical value is 4 seconds; the claims use it symbolically. -/
def CCN_INTEREST_LIFETIME_MICROSEC : Int := 4000000

/-- `struct expressed_interest` (line 53).  `action` holds the user closure,
modelled by an identifier (the callback body is external user code); `none`
models a NULL pointer.  `interest_msg = none` models a NULL message pointer
and `size` is implicit as the list length.  The `next` link is represented
by the position of the record in its bucket list. -/
structure ExpressedInterest where
  magic : Int
  lasttime : Timeval
  action : Option Nat
  interest_msg : Option (List Nat)
  target : Int
  outstanding : Int
  wanted_pub : Option (List Nat)
deriving DecidableEq

/-- `struct ccn` (line 26).  The three hash tables are modelled as
association lists, with `none` for a NULL table pointer; `keys` maps a
public-key digest to an abstract parsed-key id (`ccn_pkey *`, 0 = NULL).
The incremental skeleton-decoder state, the scratch index buffer and
`interestbuf` (pure scratch space for building messages) are not modelled. -/
structure CcnState where
  sock : Int
  outbufindex : Nat
  inbuf : Option (List Nat)
  outbuf : Option (List Nat)
  interests_by_pfx : Option (List (List Nat × List ExpressedInterest))
  interest_filters : Option (List (List Nat × Nat))
  keys : Option (List (List Nat × Int))
  now : Timeval
  timeout : Int
  refresh_us : Int
  err : Int
  errline : Nat
  running : Int
  tap : Int
deriving DecidableEq

/-- The outcome of a POSIX `write` on a descriptor: `n` bytes written,
failure with errno EAGAIN, or failure with another errno `e`. -/
inductive WriteRes where
  | wrote (n : Nat)
  | errAgain
  | errOther (e : Int)
deriving DecidableEq

/-- The external world (spec sections 1 and 6): the OS clock, socket and tap
writes, the skeleton decoder and parsers of the wire codec, the digest and
key-parsing crypto primitives, and the user upcalls.  Each field is the
oracle for one external call site of ccn_client.c. -/
structure Env where
  clock : Timeval
  skelDecode : List Nat → Nat × Int
  sockWrite : Nat → WriteRes
  tapWrite : Int
  errnoVal : Int
  closeRes : Int
  sha256 : List Nat → List Nat
  d2iPubkey : List Nat → Int
  upcallRes : Nat → UpcallKind → UpcallRes
  parseInterestOk : Option (List Nat) → Bool
  contentMatches : Option (List Nat) → Bool
  verifySignature : Int → Int
  keyClosureId : Nat
  poll : Nat → Int × Int
  pollEIntr : Bool
  processInput : CcnState → CcnState × Int

/-- `NOTE_ERR(h, e)` (line 69): record the error and its source line; the
macro itself evaluates to -1 via `ccn_note_err` (verbose printing has no
modelled effect). -/
def noteErr (st : CcnState) (e : Int) (line : Nat) : CcnState :=
  { st with err := e, errline := line }

/-- `ccn_get_connection_fd` (line 234). -/
def ccn_get_connection_fd (st : CcnState) : Int := st.sock

/-- `ccn_output_is_pending` (line 613). -/
def ccn_output_is_pending (st : CcnState) : Bool :=
  match st.outbuf with
  | some ob => decide (st.outbufindex < ob.length)
  | none => false

/-- `ccn_disconnect` (line 240): destroy both I/O buffers, close the socket
and set `sock = -1`; a failing close is reported through errno. -/
def ccn_disconnect (st : CcnState) (env : Env) : CcnState × Int :=
  let st := { st with inbuf := none, outbuf := none }
  let res := env.closeRes
  let st := { st with sock := -1 }
  if res = -1 then (noteErr st env.errnoVal 249, -1) else (st, 0)

/-- `ccn_pushout` (line 549): flush as much of the output buffer as the
socket accepts; 0 = fully drained, 1 = more remains, -1 = hard error. -/
def ccn_pushout (st : CcnState) (env : Env) : CcnState × Int :=
  match st.outbuf with
  | none => (st, 0)
  | some ob =>
    if st.outbufindex < ob.length then
      if st.sock < 0 then (st, 1)
      else
        let size := ob.length - st.outbufindex
        match env.sockWrite size with
        | WriteRes.wrote n =>
          if n = size then ({ st with outbuf := some [], outbufindex := 0 }, 0)
          else ({ st with outbufindex := st.outbufindex + n }, 1)
        | WriteRes.errAgain => (st, 1)
        | WriteRes.errOther e => (noteErr st e 564, -1)
    else (st, 0)

/-- `ccn_put` (line 571).  `p = none` models a NULL pointer.  The bytes must
skeleton-decode to exactly one complete message (`res == length && state == 0`),
else EINVAL.  An open tap mirrors the message; a failing tap write is noted
and the tap closed.  With a backlog the bytes are appended and a flush tried;
otherwise one socket write is attempted (none at all when `sock == -1`) and
any remainder is buffered, reporting 1 ("pending"). -/
def ccn_put (st : CcnState) (env : Env) (p : Option (List Nat)) : CcnState × Int :=
  match p with
  | none => (noteErr st EINVAL 577, -1)
  | some bytes =>
    if bytes.length = 0 then (noteErr st EINVAL 577, -1)
    else
      let dd := env.skelDecode bytes
      if ¬(dd.1 = bytes.length ∧ dd.2 = 0) then (noteErr st EINVAL 580, -1)
      else
        let st :=
          if st.tap ≠ -1 then
            if env.tapWrite = -1 then { noteErr st env.errnoVal 584 with tap := -1 }
            else st
          else st
        if ccn_output_is_pending st then
          let st := { st with outbuf := some (st.outbuf.getD [] ++ bytes) }
          ccn_pushout st env
        else
          let wres := if st.sock = -1 then WriteRes.wrote 0 else env.sockWrite bytes.length
          match wres with
          | WriteRes.errOther e => (noteErr st e 602, -1)
          | _ =>
            let n := match wres with | WriteRes.wrote k => k | _ => 0
            if n = bytes.length then (st, 0)
            else
              let st :=
                match st.outbuf with
                | none => { st with outbuf := some (bytes.drop n), outbufindex := 0 }
                | some ob => { st with outbuf := some (ob ++ bytes.drop n) }
              (st, 1)

/-- `ccn_refresh_interest` (line 630): when fewer copies are outstanding than
wanted, submit the stored message through `ccn_put`; a non-negative result
counts as outstanding and stamps `lasttime` (sampling the clock first if the
handle has never read it). -/
def ccn_refresh_interest (st : CcnState) (env : Env) (i : ExpressedInterest) :
    CcnState × ExpressedInterest :=
  if i.magic ≠ MAGIC then (st, i)
  else if i.outstanding < i.target then
    let r := ccn_put st env i.interest_msg
    if r.2 ≥ 0 then
      let nowv := if r.1.now.sec = 0 then env.clock else r.1.now
      ({ r.1 with now := nowv },
       { i with outstanding := i.outstanding + 1, lasttime := nowv })
    else (r.1, i)
  else (st, i)

/-- Modelled from the spec: the tagged wire encoding and `ccn_buf_decoder`
belong to the binary codec, an external collaborator (spec sections 1 and 7)
whose sources are not under src/.  A name buffer carries the raw encoded
bytes together with the decoded view the codec would report while
`ccn_check_namebuf` walks it: whether the buffer opens with a Name DTAG, the
token index just after that opening tag, the token index after each complete
Component, and whether the decoder state stays non-negative through the
final close checks. -/
structure NameView where
  isName : Bool
  startIdx : Nat
  compEnds : List Nat
  closeOk : Bool
deriving DecidableEq

/-- An encoded Name together with its decoded view (see `NameView`). -/
structure NameBuf where
  bytes : List Nat
  view : NameView
deriving DecidableEq

/-- `ccn_check_namebuf` (line 383): check that the name is valid and return
the byte offset of the end of the prefix portion, or -1.  Faithful to the
source: the loop counts components in `i` and keeps the boundary offsets in
`ans`/`prev_ans`, and the final test compares the byte offset `ans` against
the component count `prefix_comps` (`ans < prefix_comps`).  With
`omit_possible_digest`, a trailing 36-byte component ending the buffer is
dropped from the key. -/
def ccn_check_namebuf (nb : Option NameBuf) (pfx_comps : Int)
    (omit_possible_digest : Bool) : Int :=
  match nb with
  | none => -1
  | some nb =>
    if nb.bytes.length < 2 then -1
    else
      let acc :=
        if nb.view.isName then
          nb.view.compEnds.foldl (fun (a : Nat × Nat × Nat) b =>
            let i := a.1 + 1
            if pfx_comps < 0 ∨ (i : Int) ≤ pfx_comps then (i, b, a.2.1)
            else (i, a.2.1, a.2.2))
            (0, nb.view.startIdx, nb.view.startIdx)
        else (0, 0, 0)
      let ans := acc.2.1
      let prev_ans := acc.2.2
      let stateOk := if nb.view.isName then nb.view.closeOk else true
      if ¬stateOk ∨ (ans : Int) < pfx_comps then -1
      else if omit_possible_digest ∧ ans = prev_ans + 36 ∧ ans = nb.bytes.length - 1 then
        (prev_ans : Int)
      else (ans : Int)

/-- Modelled from the spec: a distinct marker byte for the Interest DTAG the
codec would emit (`ccn_charbuf_append_tt(c, CCN_DTAG_Interest, CCN_DTAG)`). -/
def BYTE_DTAG_Interest : Nat := 240

/-- Modelled from the spec: marker byte for the NameComponentCount DTAG. -/
def BYTE_DTAG_NCC : Nat := 241

/-- Modelled from the spec: the closer byte. -/
def BYTE_CLOSE : Nat := 0

/-- An interest template as seen through `ccn_parse_interest`: whether it
parses, and the two byte slices `ccn_construct_interest` copies out of it
(end of NameComponentCount up to Nonce, and the OTHER region). -/
structure InterestTemplate where
  parseOk : Bool
  sliceToNonce : List Nat
  sliceOther : List Nat
deriving DecidableEq

/-- `replace_interest_msg` (line 259): guarded by the magic sentinel; stores
a copy of the buffer, or NULL when the buffer is NULL or empty. -/
def replace_interest_msg (i : ExpressedInterest) (cb : Option (List Nat)) :
    ExpressedInterest :=
  if i.magic ≠ MAGIC then i
  else
    match cb with
    | some b => { i with interest_msg := if b.length > 0 then some b else none }
    | none => { i with interest_msg := none }

/-- `ccn_construct_interest` (line 419): concatenate the Interest tag, the
name bytes, optionally a NameComponentCount element, the template slices and
a closer.  A template that fails to parse notes EINVAL and suppresses the
message (the byte markers stand in for the codec's tag encodings). -/
def ccn_construct_interest (st : CcnState) (nb : NameBuf) (pfx_comps : Int)
    (templ : Option InterestTemplate) : CcnState × Option (List Nat) :=
  let c := BYTE_DTAG_Interest :: nb.bytes
  let c := if pfx_comps ≥ 0 then c ++ [BYTE_DTAG_NCC, pfx_comps.toNat, BYTE_CLOSE] else c
  match templ with
  | none => (st, some (c ++ [BYTE_CLOSE]))
  | some t =>
    if t.parseOk then (st, some (c ++ t.sliceToNonce ++ t.sliceOther ++ [BYTE_CLOSE]))
    else (noteErr st EINVAL 457, none)

/-- `hashtb_seek`-style insertion into an interests bucket: prepend the
record to the bucket with the given key, creating the bucket if missing. -/
def insertInterest : List (List Nat × List ExpressedInterest) → List Nat →
    ExpressedInterest → List (List Nat × List ExpressedInterest)
  | [], k, i => [(k, [i])]
  | e :: rest, k, i =>
    if e.1 = k then (e.1, i :: e.2) :: rest else e :: insertInterest rest k i

/-- All Interest records reachable from a list of interests-by-prefix
buckets. -/
def recordsOf (entries : List (List Nat × List ExpressedInterest)) :
    List ExpressedInterest :=
  entries.foldr (fun e acc => e.2 ++ acc) []

/-- All Interest records reachable from the handle's registry. -/
def registryRecords (st : CcnState) : List ExpressedInterest :=
  recordsOf (st.interests_by_pfx.getD [])

/-- `ccn_express_interest` (line 463): create the registry table on first
use, validate the name, seek (or create) the bucket keyed by
`namebuf->buf + 1 .. prefixend`, build the wire Interest, link a fresh
record with `magic`, `target = 1`, `outstanding = 0`, and send it right away
via `ccn_refresh_interest`.  The C code links the record first and refreshes
through the live pointer; since `ccn_put` never reads the registry, the model
refreshes first and inserts the refreshed record, which yields the same
state. -/
def ccn_express_interest (st : CcnState) (env : Env) (nb : Option NameBuf)
    (pfx_comps : Int) (action : Nat) (templ : Option InterestTemplate) :
    CcnState × Int :=
  let st :=
    match st.interests_by_pfx with
    | none => { st with interests_by_pfx := some [] }
    | some _ => st
  let pfxend := ccn_check_namebuf nb pfx_comps true
  if pfxend < 0 then (st, pfxend)
  else
    match nb with
    | none => (st, -1)
    | some nbuf =>
      let key := (nbuf.bytes.drop 1).take (pfxend.toNat - 1)
      let entries0 := st.interests_by_pfx.getD []
      let entries1 :=
        if (entries0.find? (fun e => decide (e.1 = key))).isSome then entries0
        else entries0 ++ [(key, [])]
      let st := { st with interests_by_pfx := some entries1 }
      let r := ccn_construct_interest st nbuf pfx_comps templ
      match r.2 with
      | none => (r.1, -1)
      | some m =>
        let interest : ExpressedInterest :=
          { magic := MAGIC, lasttime := ⟨0, 0⟩, action := some action,
            interest_msg := some m, target := 1, outstanding := 0,
            wanted_pub := none }
        let r2 := ccn_refresh_interest r.1 env interest
        ({ r2.1 with
            interests_by_pfx :=
              some (insertInterest (r2.1.interests_by_pfx.getD []) key r2.2) }, 0)

/-- Modelled from the spec: the `enum ccn_content_type` codes come from the
missing ccn headers; only their distinctness matters to the core. -/
def CCN_CONTENT_DATA : Int := 0

/-- Content type ENCR. -/
def CCN_CONTENT_ENCR : Int := 1

/-- Content type GONE. -/
def CCN_CONTENT_GONE : Int := 2

/-- Content type KEY. -/
def CCN_CONTENT_KEY : Int := 3

/-- Content type LINK. -/
def CCN_CONTENT_LINK : Int := 4

/-- Content type NACK. -/
def CCN_CONTENT_NACK : Int := 5

/-- `ccn_get_content_type` (line 649): pass through a known content type,
-1 otherwise. -/
def ccn_get_content_type (ty : Int) : Int :=
  if ty = CCN_CONTENT_DATA ∨ ty = CCN_CONTENT_ENCR ∨ ty = CCN_CONTENT_GONE ∨
     ty = CCN_CONTENT_KEY ∨ ty = CCN_CONTENT_LINK ∨ ty = CCN_CONTENT_NACK
  then ty else -1

/-- The kind of DTAG found inside a KeyLocator
(`Key | Certificate | KeyName`, or none of those). -/
inductive LocatorTag where
  | keyName
  | key
  | certificate
  | other
deriving DecidableEq

/-- A ContentObject as seen through the external parser and the tagged-BLOB
accessors at the call sites of ccn_client.c: the PublisherPublicKeyDigest
BLOB (`none` models a failed `ccn_ref_tagged_BLOB`, with the negative result
in `pubDigestErr`), the content type, the ContentObject digest, the Content
payload, whether a KeyLocator element is present, which DTAG the locator
carries, the inline-Key BLOB bytes, and the KeyName name/publisher regions
used by `ccn_initiate_key_fetch` (`keyNameBuf = none` models an empty
KeyName name). -/
structure ParsedCO where
  pubDigest : Option (List Nat)
  pubDigestErr : Int
  contentType : Int
  coDigest : List Nat
  contentValue : Option (List Nat)
  hasKeyLocator : Bool
  locator : LocatorTag
  keyBytes : List Nat
  keyNameBuf : Option NameBuf
  keyNamePub : Option (List Nat)
deriving DecidableEq

/-- `hashtb_lookup` on the key cache. -/
def hashtb_lookup_key (ks : List (List Nat × Int)) (k : List Nat) : Option Int :=
  (ks.find? (fun e => decide (e.1 = k))).map (fun e => e.2)

/-- `ccn_cache_key` (line 668): for a KEY-type ContentObject, insert its
parsed public key into the cache under the digest of its encoding (a digest
of the wrong size is EINVAL; allocation failures are not modelled). -/
def ccn_cache_key (st : CcnState) (env : Env) (pco : ParsedCO) : CcnState × Int :=
  if ccn_get_content_type pco.contentType ≠ CCN_CONTENT_KEY then (st, 0)
  else if pco.coDigest.length ≠ 32 then (noteErr st EINVAL 686, -1)
  else
    let ks := st.keys.getD []
    match hashtb_lookup_key ks pco.coDigest with
    | some _ => (st, 0)
    | none =>
      match pco.contentValue with
      | none => (noteErr st env.errnoVal 705, -1)
      | some data =>
        let pk := env.d2iPubkey data
        if pk = 0 then (noteErr st env.errnoVal 711, -1)
        else ({ st with keys := some (ks ++ [(pco.coDigest, pk)]) }, 0)

/-- `ccn_locate_key` (line 730): find the key verifying a ContentObject.
Result is (state, return value, the key written through `*pubkey`, if any):
0 with the key from the cache or parsed from an inline Key locator (then
also inserted into the cache under its SHA-256 digest; a pre-existing entry
is THIS_CANNOT_HAPPEN, noted as -73, still returning 0), 1 for a KeyName
locator, -1 for no usable locator (a Certificate locator notes the
unfinished-code sentinel -76 and falls through to -1). -/
def ccn_locate_key (st : CcnState) (env : Env) (pco : ParsedCO) :
    CcnState × Int × Option Int :=
  match st.keys with
  | none => (noteErr st EINVAL 745, -1, none)
  | some ks =>
    match pco.pubDigest with
    | none => (noteErr st pco.pubDigestErr 753, -1, none)
    | some pkeyid =>
      match hashtb_lookup_key ks pkeyid with
      | some k => (st, 0, some k)
      | none =>
        if ¬pco.hasKeyLocator then (st, -1, none)
        else
          match pco.locator with
          | LocatorTag.keyName => (st, 1, none)
          | LocatorTag.key =>
            let pk := env.d2iPubkey pco.keyBytes
            let dg := env.sha256 pco.keyBytes
            match hashtb_lookup_key ks dg with
            | none => ({ st with keys := some (ks ++ [(dg, pk)]) }, 0, some pk)
            | some _ => (noteErr st (-73) 806, 0, some pk)
          | LocatorTag.certificate => (noteErr st (-76) 811, -1, none)
          | LocatorTag.other => (st, -1, none)

/-- `ccn_initiate_key_fetch` (line 846): record the wanted publisher digest
on the trigger Interest and clear its target so it will not retransmit, then
express a sub-Interest for the KeyName (with a minimal template carrying the
publisher digest when one is present); without a KeyName name there is
nothing to ask for (-1).  The `handle_key` closure is modelled by
`env.keyClosureId`.  Result is (state, updated trigger, return value). -/
def ccn_initiate_key_fetch (st : CcnState) (env : Env) (pco : ParsedCO)
    (trigger : ExpressedInterest) : CcnState × ExpressedInterest × Int :=
  let trigger :=
    match pco.pubDigest with
    | some pk => { trigger with wanted_pub := some pk, target := 0 }
    | none => { trigger with wanted_pub := some (trigger.wanted_pub.getD []), target := 0 }
  match pco.keyNameBuf with
  | none => (st, trigger, -1)
  | some knb =>
    let templ := pco.keyNamePub.map (fun pub => InterestTemplate.mk true [] pub)
    let r := ccn_express_interest st env (some knb) (-1) env.keyClosureId templ
    (r.1, trigger, r.2)

/-- `ccn_check_pub_arrival` (line 918): when the awaited key has arrived,
drop the wait, restore `target = 1` and refresh. -/
def ccn_check_pub_arrival (st : CcnState) (env : Env) (i : ExpressedInterest) :
    CcnState × ExpressedInterest :=
  match i.wanted_pub with
  | none => (st, i)
  | some w =>
    if (hashtb_lookup_key (st.keys.getD []) w).isSome then
      ccn_refresh_interest st env { i with wanted_pub := none, target := 1 }
    else (st, i)

/-- `hashtb_lookup` on the filter registry. -/
def hashtb_lookup_filter (fs : List (List Nat × Nat)) (k : List Nat) : Option Nat :=
  (fs.find? (fun e => decide (e.1 = k))).map (fun e => e.2)

/-- One step of the filter loop of `ccn_dispatch_message` (lines 962-969) at
index `i`: the key is `msg[keystart, comps[i])`; a hit fires the filter's
action with the current kind (recording `matched_comps = i`), and a result
of INTEREST_CONSUMED flips the kind used for the rest of this message. -/
def filterLoopBody (env : Env) (fs : List (List Nat × Nat)) (msg : List Nat)
    (comps : List Nat) (i : Nat) (kind : UpcallKind) :
    List (Nat × UpcallKind) × UpcallKind :=
  let keystart := comps.headD 0
  let key := (msg.drop keystart).take (comps.getD i 0 - keystart)
  match hashtb_lookup_filter fs key with
  | some c =>
    let ures := env.upcallRes c kind
    ([(c, kind)],
     if ures = UpcallRes.INTEREST_CONSUMED then UpcallKind.CONSUMED_INTEREST else kind)
  | none => ([], kind)

/-- The descending loop `for (i = comps->n - 1; i >= 0; i--)` of the
Interest branch (lines 962-970), producing the trace of (closure, kind)
upcalls fired, from index `i` down to 0. -/
def filterLoop (env : Env) (fs : List (List Nat × Nat)) (msg : List Nat)
    (comps : List Nat) : Nat → UpcallKind → List (Nat × UpcallKind)
  | 0, kind => (filterLoopBody env fs msg comps 0 kind).1
  | Nat.succ i, kind =>
    let p := filterLoopBody env fs msg comps (i + 1) kind
    p.1 ++ filterLoop env fs msg comps i p.2

/-- An incoming message as seen through `ccn_parse_interest`: the parse
result and the component-boundary token offsets in `interest_comps`. -/
structure InterestMsgView where
  parseRes : Int
  comps : List Nat
deriving DecidableEq

/-- The Interest branch of `ccn_dispatch_message` (lines 953-971): when the
message parses as an Interest, walk the filter registry at every
component-boundary depth from deepest to shallowest, starting with kind
INTEREST.  The value is the trace of upcalls fired. -/
def ccn_dispatch_interest_msg (st : CcnState) (env : Env) (msg : List Nat)
    (view : InterestMsgView) : List (Nat × UpcallKind) :=
  if view.parseRes ≥ 0 then
    match st.interest_filters with
    | some fs =>
      if view.comps.length > 0 then
        filterLoop env fs msg view.comps (view.comps.length - 1) UpcallKind.INTEREST
      else []
    | none => []
  else []

/-- The claim side of C2 (spec section 4.5), stated in the spec's own terms:
the sequence of filters that fire, deepest first. -/
def filterHits (fs : List (List Nat × Nat)) (msg : List Nat) (comps : List Nat) :
    List Nat :=
  ((List.range comps.length).reverse).filterMap (fun j =>
    hashtb_lookup_filter fs
      ((msg.drop (comps.headD 0)).take (comps.getD j 0 - comps.headD 0)))

/-- The claim side of C2, continued: annotate the firing filters with upcall
kinds — INTEREST until some action returns INTEREST_CONSUMED, and
CONSUMED_INTEREST for every subsequent upcall of the same message. -/
def annotateKinds (env : Env) : List Nat → UpcallKind → List (Nat × UpcallKind)
  | [], _ => []
  | c :: cs, kind =>
    (c, kind) ::
      annotateKinds env cs
        (if env.upcallRes c kind = UpcallRes.INTEREST_CONSUMED then
          UpcallKind.CONSUMED_INTEREST
         else kind)

/-- The per-record body of the ContentObject branch of
`ccn_dispatch_message` (lines 994-1036): for a record with `target > 0` and
`outstanding > 0` whose stored Interest re-parses and matches the content,
cache an embedded KEY, locate the verifying key, choose the upcall kind
(CONTENT on verify success, CONTENT_BAD on failure, CONTENT_UNVERIFIED with
no key), decrement `outstanding`, fire the action, and act on the result:
REEXPRESS refreshes, VERIFY on unverified content initiates a key fetch
(parking this record), anything else retires the record.  Result is
(state, updated record). -/
def ccn_dispatch_content_step (st : CcnState) (env : Env) (pco : ParsedCO)
    (i : ExpressedInterest) : CcnState × ExpressedInterest :=
  if i.target > 0 ∧ i.outstanding > 0 then
    if env.parseInterestOk i.interest_msg ∧ env.contentMatches i.interest_msg then
      let st :=
        if ccn_get_content_type pco.contentType = CCN_CONTENT_KEY then
          (ccn_cache_key st env pco).1
        else st
      let r := ccn_locate_key st env pco
      let st := r.1
      let upcall_kind :=
        if r.2.1 = 0 then
          if env.verifySignature (r.2.2.getD 0) = 1 then UpcallKind.CONTENT
          else UpcallKind.CONTENT_BAD
        else UpcallKind.CONTENT_UNVERIFIED
      let i := { i with outstanding := i.outstanding - 1 }
      let ures := env.upcallRes (i.action.getD 0) upcall_kind
      if ures = UpcallRes.REEXPRESS then ccn_refresh_interest st env i
      else if ures = UpcallRes.VERIFY ∧ upcall_kind = UpcallKind.CONTENT_UNVERIFIED then
        let kf := ccn_initiate_key_fetch st env pco i
        (kf.1, kf.2.1)
      else (st, { replace_interest_msg { i with target := 0 } none with action := none })
    else (st, i)
  else (st, i)

/-- The overflow-guard step of `ccn_age_interest` (lines 1114-1119): only
when `lasttime.tv_sec + 30 < now.tv_sec` does the code reset `outstanding`
and clamp `lasttime` to 30 seconds before `now`. -/
def ccn_age_heal (nowv : Timeval) (i : ExpressedInterest) : ExpressedInterest :=
  if i.lasttime.sec + 30 < nowv.sec then
    { i with outstanding := 0, lasttime := ⟨nowv.sec - 30, nowv.usec⟩ }
  else i

/-- The microsecond delta of `ccn_age_interest` (lines 1120-1121), written
as the C `int` expression evaluates mathematically (the C3 theorems below
bound it inside the int range, so no wraparound occurs). -/
def ccn_age_delta (nowv : Timeval) (i : ExpressedInterest) : Int :=
  (nowv.sec - i.lasttime.sec) * 1000000 + (nowv.usec - i.lasttime.usec)

/-- The `lasttime` renormalisation loop of `ccn_age_interest`
(lines 1131-1134), with explicit fuel; each iteration decreases `delta` by
1000000 while `usec` is fixed, so the fuel supplied at the call site is
always sufficient for the loop to reach its exit condition. -/
def ageNormLoop : Nat → Int → Timeval → Int × Timeval
  | 0, delta, t => (delta, t)
  | Nat.succ fuel, delta, t =>
    if delta > t.usec then ageNormLoop fuel (delta - 1000000) ⟨t.sec - 1, t.usec⟩
    else (delta, t)

/-- `ccn_age_interest` (line 1098): heal a stale `lasttime` (see
`ccn_age_heal`), compute the microsecond delta, clear `outstanding` when the
lifetime has passed, lower the handle's `refresh_us` to the remaining
lifetime, move `lasttime` forward by the used-up time, and when the record
wants more copies than are outstanding, re-express — after the first pass
only if the action, fired with INTEREST_TIMED_OUT, says REEXPRESS (a stored
message that no longer parses is the corrupted-interest path, yielding ERR);
otherwise the target is zeroed. -/
def ccn_age_interest (st : CcnState) (env : Env) (i : ExpressedInterest) :
    CcnState × ExpressedInterest :=
  let firstcall := i.lasttime.sec = 0
  let i := ccn_age_heal st.now i
  let delta0 := ccn_age_delta st.now i
  let p : ExpressedInterest × Int :=
    if delta0 ≥ CCN_INTEREST_LIFETIME_MICROSEC then ({ i with outstanding := 0 }, 0)
    else if delta0 < 0 then (i, 0)
    else (i, delta0)
  let i := p.1
  let delta := p.2
  let st :=
    if CCN_INTEREST_LIFETIME_MICROSEC - delta < st.refresh_us then
      { st with refresh_us := CCN_INTEREST_LIFETIME_MICROSEC - delta }
    else st
  let q := ageNormLoop ((delta - st.now.usec).toNat + 1) delta st.now
  let i := { i with lasttime := ⟨q.2.sec, q.2.usec - q.1⟩ }
  if i.target > 0 ∧ i.outstanding = 0 then
    let ures :=
      if firstcall then UpcallRes.REEXPRESS
      else if env.parseInterestOk i.interest_msg then
        env.upcallRes (i.action.getD 0) UpcallKind.INTEREST_TIMED_OUT
      else UpcallRes.ERR
    if ures = UpcallRes.REEXPRESS then ccn_refresh_interest st env i
    else (st, { i with target := 0 })
  else (st, i)

/-- The per-record body of the scheduler pass (lines 1221-1229): check for
an arrived key, age the record when its target is non-zero, and mark a dead
record (target 0, no key wait) for collection by nulling its action and
message. -/
def sched_interest_step (env : Env) (st : CcnState) (i : ExpressedInterest) :
    CcnState × ExpressedInterest :=
  let p := ccn_check_pub_arrival st env i
  let q := if p.2.target ≠ 0 then ccn_age_interest p.1 env p.2 else p
  if q.2.target = 0 ∧ q.2.wanted_pub = none then
    (q.1, { replace_interest_msg q.2 none with action := none })
  else q

/-- The scheduler pass over one bucket list, threading the handle state and
reporting whether any record was marked dead. -/
def sched_list (env : Env) : CcnState → List ExpressedInterest →
    CcnState × List ExpressedInterest × Bool
  | st, [] => (st, [], false)
  | st, i :: rest =>
    let p := sched_interest_step env st i
    let retired := decide (p.2.target = 0 ∧ p.2.wanted_pub = none)
    let q := sched_list env p.1 rest
    (q.1, p.2 :: q.2.1, retired || q.2.2)

/-- The scheduler pass over all buckets (lines 1215-1232): an already empty
bucket requests a sweep; otherwise every record of the bucket goes through
`sched_interest_step`. -/
def sched_entries (env : Env) : CcnState → List (List Nat × List ExpressedInterest) →
    CcnState × List (List Nat × List ExpressedInterest) × Bool
  | st, [] => (st, [], false)
  | st, e :: rest =>
    if e.2 = [] then
      let q := sched_entries env st rest
      (q.1, e :: q.2.1, true)
    else
      let p := sched_list env st e.2
      let q := sched_entries env p.1 rest
      (q.1, (e.1, p.2.1) :: q.2.1, p.2.2 || q.2.2)

/-- `ccn_clean_interests_by_prefix` / `ccn_clean_all_interests`
(lines 308 and 1168): destroy records whose action is NULL and delete
buckets left empty. -/
def ccn_sweep_all_interests (entries : List (List Nat × List ExpressedInterest)) :
    List (List Nat × List ExpressedInterest) :=
  (entries.map (fun e => (e.1, e.2.filter (fun i => i.action.isSome)))).filter
    (fun e => ¬e.2.isEmpty)

/-- `ccn_process_scheduled_operations` (line 1192): start from
`refresh_us = 5 × LIFETIME`, sample the clock, and return immediately while
output is pending.  Otherwise run the per-record pass under the re-entrance
counter and sweep when something was marked dead.  The interest-filter pass
(lines 1205-1213) is an empty placeholder loop and leaves no modelled trace.
Returns the state and the microseconds until the next scheduled work. -/
def ccn_process_scheduled_operations (st : CcnState) (env : Env) : CcnState × Int :=
  let st := { st with refresh_us := 5 * CCN_INTEREST_LIFETIME_MICROSEC, now := env.clock }
  if ccn_output_is_pending st then (st, st.refresh_us)
  else
    let st := { st with running := st.running + 1 }
    let st :=
      match st.interests_by_pfx with
      | none => st
      | some entries =>
        let q := sched_entries env st entries
        let entries2 := if q.2.2 then ccn_sweep_all_interests q.2.1 else q.2.1
        { q.1 with interests_by_pfx := some entries2 }
    let st := { st with running := st.running - 1 }
    (st, st.refresh_us)

/-- The body of the `ccn_run` event loop (lines 1279-1318), with explicit
fuel (exhausted fuel is a model cutoff returning -1); the value is
(state, result, number of iterations entered).  Reading and dispatching
input runs the external codec and the user upcalls, modelled by
`env.processInput`; poll results come from `env.poll`, indexed by remaining
fuel.  The source tests `(fds[0].revents | POLLOUT)` and
`(fds[0].revents | POLLIN)` with bitwise or — always non-zero — so whenever
poll reports any activity both the flush and the input processing run; the
model reproduces that faithfully. -/
def ccn_run_loop (env : Env) : Nat → CcnState → Timeval → CcnState × Int × Nat
  | 0, st, _ => (st, -1, 0)
  | Nat.succ fuel, st, start =>
    if st.sock = -1 then (st, -1, 1)
    else
      let p := ccn_process_scheduled_operations st env
      let st := p.1
      let timeout := st.timeout
      if start.sec ≠ 0 ∧ timeout ≥ 0 ∧
          (st.now.sec - start.sec) * 1000 + (st.now.usec - start.usec) / 1000 > timeout then
        (st, 0, 1)
      else
        let start := if start.sec = 0 then st.now else start
        let pr := env.poll fuel
        if pr.1 < 0 ∧ ¬env.pollEIntr then (noteErr st env.errnoVal 1305, -1, 1)
        else
          let st := if pr.1 > 0 then (env.processInput (ccn_pushout st env).1).1 else st
          let st := if st.err = ENOTCONN then (ccn_disconnect st env).1 else st
          if st.timeout = 0 then (st, pr.1, 1)
          else
            let r := ccn_run_loop env fuel st start
            (r.1, r.2.1, r.2.2 + 1)

/-- `ccn_run` (line 1266): a handle already inside `ccn_run`
(`running != 0`) is rejected with EBUSY before anything else happens; the
loop then runs with the caller's timeout, and a negative loop result is
passed through while anything else returns 0. -/
def ccn_run (st : CcnState) (env : Env) (timeout : Int) (fuel : Nat) :
    CcnState × Int × Nat :=
  if st.running ≠ 0 then (noteErr st EBUSY 1275, -1, 0)
  else
    let st := { st with timeout := timeout }
    let r := ccn_run_loop env fuel st ⟨0, 0⟩
    (r.1, if r.2.1 < 0 then r.2.1 else 0, r.2.2)

/-- The claimed record invariant (spec section 8):
`0 ≤ outstanding ≤ target ≤ 1`. -/
def invInterest (i : ExpressedInterest) : Prop :=
  0 ≤ i.outstanding ∧ i.outstanding ≤ i.target ∧ i.target ≤ 1

instance (i : ExpressedInterest) : Decidable (invInterest i) := by
  unfold invInterest
  infer_instance

/-- Every Interest record reachable from the registry satisfies the claimed
record invariant. -/
def registryInv (st : CcnState) : Prop :=
  ∀ i ∈ registryRecords st, invInterest i

instance (st : CcnState) : Decidable (registryInv st) := by
  unfold registryInv
  infer_instance

/-- A baseline handle state for concrete runs: freshly created
(`ccn_create` leaves `sock = -1`, no tables but the key cache, `tap = -1`). -/
def st0 : CcnState :=
  { sock := -1, outbufindex := 0, inbuf := none, outbuf := none,
    interests_by_pfx := none, interest_filters := none, keys := some [],
    now := ⟨0, 0⟩, timeout := -1, refresh_us := 0, err := 0, errline := 0,
    running := 0, tap := -1 }

/-- A baseline environment for concrete runs. -/
def env0 : Env :=
  { clock := ⟨1, 0⟩, skelDecode := fun b => (b.length, 0),
    sockWrite := fun _ => WriteRes.errAgain, tapWrite := 0, errnoVal := 5,
    closeRes := 0, sha256 := fun b => 99 :: b, d2iPubkey := fun _ => 1,
    upcallRes := fun _ _ => UpcallRes.OK, parseInterestOk := fun _ => true,
    contentMatches := fun _ => true, verifySignature := fun _ => 1,
    keyClosureId := 42, poll := fun _ => (0, 0), pollEIntr := false,
    processInput := fun s => (s, 0) }

/-- Scenario 4 of spec section 8, concretely: the wire bytes of the Interest
`/x/y/z` in the modelled encoding (Name open, three components, closer). -/
def exMsg : List Nat := [200, 201, 120, 0, 201, 121, 0, 201, 122, 0, 0]

/-- The component-boundary token offsets `ccn_parse_interest` reports for
`exMsg`: the starts of the three components and the end of the last. -/
def exComps : List Nat := [1, 4, 7, 10]

/-- The filter registry holding `/x` (closure 1) and `/x/y` (closure 2),
keyed as `ccn_set_interest_filter` stores them: the encoded name stripped of
its outer framing (`namebuf->buf + 1`, length - 2). -/
def exFilters : List (List Nat × Nat) :=
  [([201, 120, 0], 1), ([201, 120, 0, 201, 121, 0], 2)]

/-- An environment where the `/x/y` filter (closure 2) answers an INTEREST
upcall with INTEREST_CONSUMED. -/
def exEnv : Env :=
  { env0 with
      upcallRes := fun c k =>
        if c = 2 ∧ k = UpcallKind.INTEREST then UpcallRes.INTEREST_CONSUMED
        else UpcallRes.OK }

/-- The handle with the two filters registered. -/
def exSt : CcnState := { st0 with interest_filters := some exFilters }

/-- The parsed view of `exMsg`. -/
def exView : InterestMsgView := { parseRes := 0, comps := exComps }

/-- An expressed Interest whose `lasttime` is the epoch and which has one
copy outstanding, for the C3 boundary input. -/
def cexInterest : ExpressedInterest :=
  { magic := MAGIC, lasttime := ⟨0, 0⟩, action := some 1,
    interest_msg := some [9], target := 1, outstanding := 1, wanted_pub := none }

/-- A well-formed encoded Name with exactly one component whose end offset
is 13 (a component with a long content blob), in a 15-byte buffer. -/
def cexName : NameBuf :=
  { bytes := List.replicate 15 7,
    view := { isName := true, startIdx := 2, compEnds := [13], closeOk := true } }

/-- Claim C10: after `ccn_disconnect` returns, the handle's input and output
buffers have been destroyed and its socket field is -1, so
`ccn_output_is_pending` returns 0 and `ccn_get_connection_fd` returns -1,
regardless of what was buffered before the call. -/
theorem C10_disconnect_resets (st : CcnState) (env : Env) :
    (ccn_disconnect st env).1.inbuf = none ∧
    (ccn_disconnect st env).1.outbuf = none ∧
    (ccn_disconnect st env).1.sock = -1 ∧
    ccn_output_is_pending (ccn_disconnect st env).1 = false ∧
    ccn_get_connection_fd (ccn_disconnect st env).1 = -1 := by
  unfold ccn_disconnect ccn_output_is_pending ccn_get_connection_fd noteErr
  by_cases h : env.closeRes = -1 <;> simp [h]

/-- Claim C7: calling `ccn_run` on a handle whose re-entrance counter
`running` is non-zero returns -1 with the error slot set to EBUSY (noted at
source line 1275), without entering the event loop (zero iterations, and no
other field of the handle changes). -/
theorem C7_run_reentrant_ebusy (st : CcnState) (env : Env) (timeout : Int)
    (fuel : Nat) (h : st.running ≠ 0) :
    ccn_run st env timeout fuel = ({ st with err := EBUSY, errline := 1275 }, -1, 0) := by
  unfold ccn_run noteErr
  simp [h]

/-- Witness for C7 at a concrete re-entered handle. -/
theorem C7_run_reentrant_ebusy_witness :
    ccn_run { st0 with running := 2 } env0 (-1) 5 =
      ({ st0 with running := 2, err := EBUSY, errline := 1275 }, -1, 0) :=
  C7_run_reentrant_ebusy { st0 with running := 2 } env0 (-1) 5 (by decide)

/-- Claim C5: on a handle with no outstanding Interests the scheduler pass
changes no registry state and returns `5 × LIFETIME` microseconds; and
whenever output is pending it returns `5 × LIFETIME` immediately, leaving
everything except `refresh_us` and the clock sample untouched (in
particular, no per-Interest aging happens). -/
theorem C5_sched_idle_or_pending (st : CcnState) (env : Env) :
    ((st.interests_by_pfx = none ∨ st.interests_by_pfx = some []) →
      ccn_output_is_pending st = false →
      (ccn_process_scheduled_operations st env).2 = 5 * CCN_INTEREST_LIFETIME_MICROSEC ∧
      (ccn_process_scheduled_operations st env).1 =
        { st with refresh_us := 5 * CCN_INTEREST_LIFETIME_MICROSEC, now := env.clock })
  ∧ (ccn_output_is_pending st = true →
      (ccn_process_scheduled_operations st env).2 = 5 * CCN_INTEREST_LIFETIME_MICROSEC ∧
      (ccn_process_scheduled_operations st env).1 =
        { st with refresh_us := 5 * CCN_INTEREST_LIFETIME_MICROSEC, now := env.clock }) := by
  constructor
  · intro hreg hnp
    have h2 : ccn_output_is_pending
        { st with refresh_us := 5 * CCN_INTEREST_LIFETIME_MICROSEC, now := env.clock } =
        false := hnp
    unfold ccn_process_scheduled_operations
    rcases hreg with h | h <;> simp [h2, h, sched_entries]
  · intro hp
    have h2 : ccn_output_is_pending
        { st with refresh_us := 5 * CCN_INTEREST_LIFETIME_MICROSEC, now := env.clock } =
        true := hp
    unfold ccn_process_scheduled_operations
    simp [h2]

/-- Witness for C5: an idle freshly created handle and one with pending
output. -/
theorem C5_sched_idle_or_pending_witness :
    ((ccn_process_scheduled_operations st0 env0).2 = 5 * CCN_INTEREST_LIFETIME_MICROSEC ∧
      (ccn_process_scheduled_operations st0 env0).1 =
        { st0 with refresh_us := 5 * CCN_INTEREST_LIFETIME_MICROSEC, now := env0.clock }) ∧
    ((ccn_process_scheduled_operations { st0 with outbuf := some [3] } env0).2 =
        5 * CCN_INTEREST_LIFETIME_MICROSEC ∧
      (ccn_process_scheduled_operations { st0 with outbuf := some [3] } env0).1 =
        { st0 with outbuf := some [3],
                   refresh_us := 5 * CCN_INTEREST_LIFETIME_MICROSEC, now := env0.clock }) :=
  ⟨(C5_sched_idle_or_pending st0 env0).1 (by decide) (by decide),
   (C5_sched_idle_or_pending { st0 with outbuf := some [3] } env0).2 (by decide)⟩

/-- Claim C8: `ccn_put` with a well-formed single message on a handle whose
socket is -1 and whose output buffer is empty attempts no write, appends the
entire message to the output buffer, and returns 1 (pending): the result
does not depend on the socket-write oracle at all. -/
theorem C8_put_disconnected_buffers (st : CcnState) (env : Env) (bytes : List Nat)
    (hs : st.sock = -1) (ht : st.tap = -1) (hnp : ccn_output_is_pending st = false)
    (hv : env.skelDecode bytes = (bytes.length, 0)) (hne : bytes ≠ []) :
    (ccn_put st env (some bytes)).2 = 1 ∧
    (ccn_put st env (some bytes)).1.outbuf = some (st.outbuf.getD [] ++ bytes) ∧
    (∀ f, ccn_put st { env with sockWrite := f } (some bytes) =
      ccn_put st env (some bytes)) := by
  have hlen : bytes.length ≠ 0 := fun h => hne (List.length_eq_zero.mp h)
  have hlen0 : ¬(0 = bytes.length) := fun h => hlen h.symm
  refine ⟨?_, ?_, ?_⟩
  · unfold ccn_put
    simp [hlen, hv, ht, hs, hnp, hlen0]
  · unfold ccn_put
    simp [hlen, hv, ht, hs, hnp, hlen0]
    cases h : st.outbuf <;> simp [h]
  · intro f
    unfold ccn_put
    simp [hlen, hv, ht, hs, hnp, hlen0]

/-- Witness for C8 on a freshly created (unconnected) handle. -/
theorem C8_put_disconnected_buffers_witness :
    (ccn_put st0 env0 (some [1, 2, 3])).2 = 1 ∧
    (ccn_put st0 env0 (some [1, 2, 3])).1.outbuf = some [1, 2, 3] := by
  have h := C8_put_disconnected_buffers st0 env0 [1, 2, 3]
    (by decide) (by decide) (by decide) (by decide) (by decide)
  exact ⟨h.1, by rw [h.2.1]; rfl⟩

/-- Claim C4 counterexample: on an input whose bytes do not skeleton-decode
to one complete message (the decoder consumes nothing and reports a non-zero
state), `ccn_put` returns -1 with EINVAL noted — the return value on failure
is -1, never 0 as the claim's last clause states. -/
theorem C4_put_failure_counterexample :
    (ccn_put st0 { env0 with skelDecode := fun _ => (0, 1) } (some [1])).2 = -1 ∧
    (ccn_put st0 { env0 with skelDecode := fun _ => (0, 1) } (some [1])).1.err = EINVAL ∧
    (ccn_put st0 { env0 with skelDecode := fun _ => (0, 1) } (some [1])).2 ≠ 0 := by
  decide

/-- Claim C4 (amended): `ccn_put` rejects any input whose bytes do not
skeleton-decode to exactly one complete top-level message, noting EINVAL and
returning -1 (not 0); for a validated message sent directly (no backlog, on
a connected socket): a complete write returns 0, a short write or EAGAIN
buffers the remainder and returns 1 (pending), and a hard write error
returns -1. -/
theorem C4_put_return_convention (st : CcnState) (env : Env) (bytes : List Nat) :
    (¬((env.skelDecode bytes).1 = bytes.length ∧ (env.skelDecode bytes).2 = 0) →
        (ccn_put st env (some bytes)).2 = -1 ∧
        (ccn_put st env (some bytes)).1.err = EINVAL)
  ∧ (bytes ≠ [] →
      env.skelDecode bytes = (bytes.length, 0) →
      ccn_output_is_pending st = false →
      st.sock ≥ 0 →
      ((env.sockWrite bytes.length = WriteRes.wrote bytes.length →
          (ccn_put st env (some bytes)).2 = 0)
        ∧ (∀ n, n ≠ bytes.length → env.sockWrite bytes.length = WriteRes.wrote n →
            (ccn_put st env (some bytes)).2 = 1)
        ∧ (env.sockWrite bytes.length = WriteRes.errAgain →
            (ccn_put st env (some bytes)).2 = 1)
        ∧ (∀ e, env.sockWrite bytes.length = WriteRes.errOther e →
            (ccn_put st env (some bytes)).2 = -1))) := by
  constructor
  · intro hbad
    by_cases hb : bytes.length = 0
    · unfold ccn_put
      simp [hb, noteErr]
    · unfold ccn_put
      simp [hb, hbad, noteErr]
  · intro hne hv hnp hsock
    have hlen : bytes.length ≠ 0 := fun h => hne (List.length_eq_zero.mp h)
    have hlen0 : ¬(0 = bytes.length) := fun h => hlen h.symm
    have hnm1 : ¬(st.sock = -1) := by omega
    have hvalid : (env.skelDecode bytes).1 = bytes.length ∧ (env.skelDecode bytes).2 = 0 := by
      rw [hv]
      exact ⟨rfl, rfl⟩
    by_cases htap : st.tap = -1
    · refine ⟨?_, ?_, ?_, ?_⟩
      · intro hw
        unfold ccn_put
        simp [hlen, hvalid, htap, hnp, hnm1, hw]
      · intro n hn hw
        unfold ccn_put
        simp [hlen, hvalid, htap, hnp, hnm1, hw, hn]
      · intro hw
        unfold ccn_put
        simp [hlen, hvalid, htap, hnp, hnm1, hw, hlen0]
      · intro e hw
        unfold ccn_put
        simp [hlen, hvalid, htap, hnp, hnm1, hw]
    · have hnp2 : ∀ e line, ccn_output_is_pending { noteErr st e line with tap := -1 } = false := by
        intro e line
        exact hnp
      have hnm2 : ∀ e line, ¬(({ noteErr st e line with tap := -1 } : CcnState).sock = -1) := by
        intro e line
        exact hnm1
      by_cases htw : env.tapWrite = -1
      · refine ⟨?_, ?_, ?_, ?_⟩
        · intro hw
          unfold ccn_put
          simp [hlen, hvalid, htap, htw, hnp2, hnm2, hw]
        · intro n hn hw
          unfold ccn_put
          simp [hlen, hvalid, htap, htw, hnp2, hnm2, hw, hn]
        · intro hw
          unfold ccn_put
          simp [hlen, hvalid, htap, htw, hnp2, hnm2, hw, hlen0]
        · intro e hw
          unfold ccn_put
          simp [hlen, hvalid, htap, htw, hnp2, hnm2, hw]
      · refine ⟨?_, ?_, ?_, ?_⟩
        · intro hw
          unfold ccn_put
          simp [hlen, hvalid, htap, htw, hnp, hnm1, hw]
        · intro n hn hw
          unfold ccn_put
          simp [hlen, hvalid, htap, htw, hnp, hnm1, hw, hn]
        · intro hw
          unfold ccn_put
          simp [hlen, hvalid, htap, htw, hnp, hnm1, hw, hlen0]
        · intro e hw
          unfold ccn_put
          simp [hlen, hvalid, htap, htw, hnp, hnm1, hw]

/-- Witness for C4: a rejected input, a complete send, an EAGAIN-deferred
send, and a hard-error send, each at concrete inputs. -/
theorem C4_put_return_convention_witness :
    ((ccn_put st0 { env0 with skelDecode := fun _ => (0, 2) } (some [4])).2 = -1 ∧
      (ccn_put st0 { env0 with skelDecode := fun _ => (0, 2) } (some [4])).1.err = EINVAL) ∧
    (ccn_put { st0 with sock := 3 }
        { env0 with sockWrite := fun _ => WriteRes.wrote 1 } (some [4])).2 = 0 ∧
    (ccn_put { st0 with sock := 3 } env0 (some [4])).2 = 1 ∧
    (ccn_put { st0 with sock := 3 }
        { env0 with sockWrite := fun _ => WriteRes.errOther 32 } (some [4])).2 = -1 := by
  refine ⟨(C4_put_return_convention st0 { env0 with skelDecode := fun _ => (0, 2) } [4]).1
    (by decide), ?_, ?_, ?_⟩
  · exact ((C4_put_return_convention { st0 with sock := 3 }
      { env0 with sockWrite := fun _ => WriteRes.wrote 1 } [4]).2
      (by decide) (by decide) (by decide) (by decide)).1 (by decide)
  · exact ((C4_put_return_convention { st0 with sock := 3 } env0 [4]).2
      (by decide) (by decide) (by decide) (by decide)).2.2.1 (by decide)
  · exact ((C4_put_return_convention { st0 with sock := 3 }
      { env0 with sockWrite := fun _ => WriteRes.errOther 32 } [4]).2
      (by decide) (by decide) (by decide) (by decide)).2.2.2 32 (by decide)

/-- Appending a fresh pair to the key cache makes its digest found. -/
theorem lookup_append_self (ks : List (List Nat × Int)) (dg : List Nat) (pk : Int) :
    (hashtb_lookup_key (ks ++ [(dg, pk)]) dg).isSome = true := by
  induction ks with
  | nil => simp [hashtb_lookup_key]
  | cons e rest ih =>
    by_cases h : e.1 = dg
    · simp [hashtb_lookup_key, List.find?_cons, h]
    · simp [hashtb_lookup_key, List.find?_cons, h]

/-- Claim C6: `ccn_locate_key` returns 0 and fills in the public key when
the publisher digest is in the key cache or the KeyLocator carries an inline
Key (which then sits in the cache under its SHA-256 digest); returns 1
(must fetch) when the KeyLocator is a KeyName; and returns a negative value
(unusable) when no KeyLocator is present or the locator is an unsupported
Certificate. -/
theorem C6_locate_key (st : CcnState) (env : Env) (pco : ParsedCO)
    (ks : List (List Nat × Int)) (pid : List Nat)
    (hks : st.keys = some ks) (hpid : pco.pubDigest = some pid) :
    (∀ k, hashtb_lookup_key ks pid = some k → ccn_locate_key st env pco = (st, 0, some k))
  ∧ (hashtb_lookup_key ks pid = none →
      ((pco.hasKeyLocator = true → pco.locator = LocatorTag.key →
          (ccn_locate_key st env pco).2.1 = 0 ∧
          (ccn_locate_key st env pco).2.2 = some (env.d2iPubkey pco.keyBytes) ∧
          (hashtb_lookup_key ((ccn_locate_key st env pco).1.keys.getD [])
              (env.sha256 pco.keyBytes)).isSome = true)
        ∧ (pco.hasKeyLocator = true → pco.locator = LocatorTag.keyName →
            ccn_locate_key st env pco = (st, 1, none))
        ∧ (pco.hasKeyLocator = false → (ccn_locate_key st env pco).2.1 < 0)
        ∧ (pco.hasKeyLocator = true → pco.locator = LocatorTag.certificate →
            (ccn_locate_key st env pco).2.1 < 0))) := by
  constructor
  · intro k hk
    unfold ccn_locate_key
    rw [hks, hpid]
    simp [hk]
  · intro hmiss
    refine ⟨?_, ?_, ?_, ?_⟩
    · intro hloc htag
      unfold ccn_locate_key
      rw [hks, hpid]
      simp only [hmiss, hloc, htag]
      cases hdg : hashtb_lookup_key ks (env.sha256 pco.keyBytes) with
      | none => simp [hdg, lookup_append_self]
      | some k0 =>
        simp [hdg, noteErr, hks]
    · intro hloc htag
      unfold ccn_locate_key
      rw [hks, hpid]
      simp [hmiss, hloc, htag]
    · intro hloc
      unfold ccn_locate_key
      rw [hks, hpid]
      simp [hmiss, hloc]
    · intro hloc htag
      unfold ccn_locate_key
      rw [hks, hpid]
      simp [hmiss, hloc, htag, noteErr]

/-- Witness for C6: all four outcomes at concrete content objects: a cached
publisher digest, an inline Key, a KeyName, and a missing locator. -/
theorem C6_locate_key_witness :
    ccn_locate_key { st0 with keys := some [([7], 9)] } env0
        { pubDigest := some [7], pubDigestErr := 0, contentType := 0,
          coDigest := [], contentValue := none, hasKeyLocator := false,
          locator := LocatorTag.other, keyBytes := [], keyNameBuf := none,
          keyNamePub := none } =
      ({ st0 with keys := some [([7], 9)] }, 0, some 9) ∧
    (ccn_locate_key st0 env0
        { pubDigest := some [7], pubDigestErr := 0, contentType := 0,
          coDigest := [], contentValue := none, hasKeyLocator := true,
          locator := LocatorTag.key, keyBytes := [5], keyNameBuf := none,
          keyNamePub := none }).2.1 = 0 ∧
    ccn_locate_key st0 env0
        { pubDigest := some [7], pubDigestErr := 0, contentType := 0,
          coDigest := [], contentValue := none, hasKeyLocator := true,
          locator := LocatorTag.keyName, keyBytes := [], keyNameBuf := none,
          keyNamePub := none } = (st0, 1, none) ∧
    (ccn_locate_key st0 env0
        { pubDigest := some [7], pubDigestErr := 0, contentType := 0,
          coDigest := [], contentValue := none, hasKeyLocator := false,
          locator := LocatorTag.other, keyBytes := [], keyNameBuf := none,
          keyNamePub := none }).2.1 < 0 := by
  refine ⟨?_, ?_, ?_, ?_⟩
  · exact (C6_locate_key { st0 with keys := some [([7], 9)] } env0 _ [([7], 9)] [7]
      (by decide) (by decide)).1 9 (by decide)
  · exact (((C6_locate_key st0 env0 _ [] [7] (by decide) (by decide)).2
      (by decide)).1 (by decide) (by decide)).1
  · exact ((C6_locate_key st0 env0 _ [] [7] (by decide) (by decide)).2
      (by decide)).2.1 (by decide) (by decide)
  · exact ((C6_locate_key st0 env0 _ [] [7] (by decide) (by decide)).2
      (by decide)).2.2.1 (by decide)

/-- Claim C3 counterexample: with `lasttime = (0,0)` and `now = (30,0)` the
record's last_time is exactly 30 seconds old — "at least 30 seconds older" —
yet the guard of `ccn_age_interest` (line 1114) does not fire: when the
microsecond delta is computed, `outstanding` is still 1 and nothing was
clamped. -/
theorem C3_age_heal_counterexample :
    ccn_age_delta ⟨30, 0⟩ cexInterest ≥ 30 * 1000000 ∧
    ccn_age_heal ⟨30, 0⟩ cexInterest = cexInterest ∧
    (ccn_age_heal ⟨30, 0⟩ cexInterest).outstanding = 1 := by
  decide

/-- Claim C3 (amended): the overflow guard of `ccn_age_interest` fires
exactly when `lasttime.tv_sec + 30 < now.tv_sec` — the record is more than
30 whole seconds old — and then resets `outstanding` to 0 and clamps
`lasttime` to `now - 30 s` before the microsecond delta is computed, making
the healed delta exactly 30000000.  For well-formed clock samples
(microsecond fields in [0, 1000000), `lasttime` not after `now`) the delta
computed after the guard always lies in (-1000000, 31000000), inside the C
int range, so the delta arithmetic cannot overflow. -/
theorem C3_age_heal_amended (nowv : Timeval) (i : ExpressedInterest)
    (h1 : 0 ≤ nowv.usec) (h2 : nowv.usec < 1000000)
    (h3 : 0 ≤ i.lasttime.usec) (h4 : i.lasttime.usec < 1000000)
    (h5 : i.lasttime.sec ≤ nowv.sec) :
    (i.lasttime.sec + 30 < nowv.sec →
        ccn_age_heal nowv i =
          { i with outstanding := 0, lasttime := ⟨nowv.sec - 30, nowv.usec⟩ } ∧
        ccn_age_delta nowv (ccn_age_heal nowv i) = 30000000)
  ∧ (¬(i.lasttime.sec + 30 < nowv.sec) → ccn_age_heal nowv i = i)
  ∧ (-1000000 < ccn_age_delta nowv (ccn_age_heal nowv i) ∧
      ccn_age_delta nowv (ccn_age_heal nowv i) < 31000000) := by
  unfold ccn_age_heal ccn_age_delta
  by_cases h : i.lasttime.sec + 30 < nowv.sec
  · simp [h]
  · simp [h]
    omega

/-- Witness for C3 (amended) at a record 100 seconds stale. -/
theorem C3_age_heal_amended_witness :
    ccn_age_heal ⟨100, 0⟩ cexInterest =
      { cexInterest with outstanding := 0, lasttime := ⟨70, 0⟩ } ∧
    ccn_age_delta ⟨100, 0⟩ (ccn_age_heal ⟨100, 0⟩ cexInterest) = 30000000 :=
  (C3_age_heal_amended ⟨100, 0⟩ cexInterest (by decide) (by decide) (by decide)
    (by decide) (by decide)).1 (by decide)

/-- Claim C9 counterexample: a well-formed encoded Name with a single
component (end offset 13, in a 15-byte buffer) and `prefix_comps = 3`: the
name has fewer components than requested, but `ccn_check_namebuf` compares
the byte offset 13 against the count 3 (line 412), accepts the name, and
`ccn_express_interest` proceeds: it returns 0 and adds an Interest record to
the registry instead of returning a negative value. -/
theorem C9_express_counterexample :
    cexName.view.compEnds.length = 1 ∧
    ccn_check_namebuf (some cexName) 3 true = 13 ∧
    (ccn_express_interest st0 env0 (some cexName) 3 7 none).2 = 0 ∧
    (registryRecords (ccn_express_interest st0 env0 (some cexName) 3 7 none).1).length
      = 1 := by
  decide

/-- Claim C9 (amended): whenever `ccn_check_namebuf` rejects the name,
returning a negative value — in particular when the name buffer is NULL,
shorter than 2 bytes, or decodes with an error — `ccn_express_interest`
returns that negative value without constructing or sending any Interest
(the output buffer is untouched and the socket-write oracle is never
consulted) and without adding any Interest record to the registry.  The
fewer-components-than-`prefix_comps` condition of the original claim is
enforced only through the source's comparison of the byte offset `ans`
against the component count, which the counterexample shows accepts some
too-short names. -/
theorem C9_express_reject_amended (st : CcnState) (env : Env) (nb : Option NameBuf)
    (pc : Int) (action : Nat) (templ : Option InterestTemplate) :
    (ccn_check_namebuf nb pc true < 0 →
        (ccn_express_interest st env nb pc action templ).2 < 0 ∧
        registryRecords (ccn_express_interest st env nb pc action templ).1 =
          registryRecords st ∧
        (ccn_express_interest st env nb pc action templ).1.outbuf = st.outbuf ∧
        (∀ f, ccn_express_interest st { env with sockWrite := f } nb pc action templ =
          ccn_express_interest st env nb pc action templ))
  ∧ (nb = none → ccn_check_namebuf nb pc true < 0)
  ∧ (∀ b, nb = some b → b.bytes.length < 2 → ccn_check_namebuf nb pc true < 0)
  ∧ (∀ b, nb = some b → b.view.isName = true → b.view.closeOk = false →
      ccn_check_namebuf nb pc true < 0) := by
  refine ⟨?_, ?_, ?_, ?_⟩
  · intro h
    refine ⟨?_, ?_, ?_, ?_⟩
    · unfold ccn_express_interest
      cases hr : st.interests_by_pfx <;> simp [hr, h]
    · unfold ccn_express_interest
      cases hr : st.interests_by_pfx <;>
        simp [hr, h, registryRecords, recordsOf]
    · unfold ccn_express_interest
      cases hr : st.interests_by_pfx <;> simp [hr, h]
    · intro f
      unfold ccn_express_interest
      cases hr : st.interests_by_pfx <;> simp [hr, h]
  · intro h
    subst h
    show (-1 : Int) < 0
    decide
  · intro b hb hl
    subst hb
    unfold ccn_check_namebuf
    simp [hl]
  · intro b hb h1 h2
    subst hb
    unfold ccn_check_namebuf
    by_cases hl : b.bytes.length < 2
    · simp [hl]
    · simp [hl, h1, h2]

/-- Witness for C9 (amended): the one-component name is rejected when 100
components are requested, leaving the registry empty. -/
theorem C9_express_reject_amended_witness :
    (ccn_express_interest st0 env0 (some cexName) 100 7 none).2 < 0 ∧
    registryRecords (ccn_express_interest st0 env0 (some cexName) 100 7 none).1 =
      registryRecords st0 := by
  have h := (C9_express_reject_amended st0 env0 (some cexName) 100 7 none).1 (by decide)
  exact ⟨h.1, h.2.1⟩

/-- The descending filter loop refines the spec-side description: it equals
annotating the deepest-first hit list with the kind-threading discipline. -/
theorem filterLoop_eq_annotate (env : Env) (fs : List (List Nat × Nat))
    (msg : List Nat) (comps : List Nat) :
    ∀ (i : Nat) (k : UpcallKind),
      filterLoop env fs msg comps i k =
      annotateKinds env
        (((List.range (i + 1)).reverse).filterMap (fun j =>
          hashtb_lookup_filter fs
            ((msg.drop (comps.headD 0)).take (comps.getD j 0 - comps.headD 0)))) k := by
  intro i
  induction i with
  | zero =>
    intro k
    have hr0 : (List.range (0 + 1)).reverse = [0] := rfl
    rw [hr0]
    show (filterLoopBody env fs msg comps 0 k).1 = _
    unfold filterLoopBody
    cases h : hashtb_lookup_filter fs
        ((msg.drop (comps.headD 0)).take (comps.getD 0 0 - comps.headD 0)) <;>
      simp only [h, List.filterMap_cons, List.filterMap_nil, annotateKinds]
  | succ n ih =>
    intro k
    have hr : (List.range (n + 1 + 1)).reverse = (n + 1) :: (List.range (n + 1)).reverse := by
      rw [List.range_succ]
      simp
    rw [hr]
    cases h : hashtb_lookup_filter fs
        ((msg.drop (comps.headD 0)).take (comps.getD (n + 1) 0 - comps.headD 0)) with
    | some c =>
      simp only [filterLoop, filterLoopBody, h, List.filterMap_cons, annotateKinds]
      simp [ih]
    | none =>
      simp only [filterLoop, filterLoopBody, h, List.filterMap_cons, annotateKinds]
      simp [ih]

/-- Claim C2: when a received message parses as an Interest, the dispatcher
looks up the filter registry at each name-component boundary from deepest to
shallowest and fires every matching filter's action, with kind INTEREST
until some action returns INTEREST_CONSUMED and kind CONSUMED_INTEREST for
every subsequent upcall of the same message (the dispatch trace equals the
spec-side `annotateKinds` over the deepest-first hit list); concretely, with
filters /x and /x/y registered and incoming Interest /x/y/z, the /x/y filter
fires first with INTEREST and — returning INTEREST_CONSUMED — the /x filter
then fires with CONSUMED_INTEREST. -/
theorem C2_filter_dispatch (st : CcnState) (env : Env) (msg : List Nat)
    (view : InterestMsgView) (fs : List (List Nat × Nat)) :
    (st.interest_filters = some fs → view.parseRes ≥ 0 →
      ccn_dispatch_interest_msg st env msg view =
        annotateKinds env (filterHits fs msg view.comps) UpcallKind.INTEREST)
  ∧ ccn_dispatch_interest_msg exSt exEnv exMsg exView =
      [(2, UpcallKind.INTEREST), (1, UpcallKind.CONSUMED_INTEREST)] := by
  constructor
  · intro hf hp
    unfold ccn_dispatch_interest_msg filterHits
    rw [hf]
    simp only [hp, if_pos]
    by_cases hlen : view.comps.length > 0
    · simp only [if_pos hlen]
      rw [filterLoop_eq_annotate]
      have heq : view.comps.length - 1 + 1 = view.comps.length := by omega
      rw [heq]
    · simp only [if_neg hlen]
      have h0 : view.comps.length = 0 := Nat.eq_zero_of_not_pos hlen
      rw [h0]
      simp [annotateKinds]
  · decide

/-- Witness for C2: the refinement equality at the concrete /x, /x/y, /x/y/z
scenario. -/
theorem C2_filter_dispatch_witness :
    ccn_dispatch_interest_msg exSt exEnv exMsg exView =
      annotateKinds exEnv (filterHits exFilters exMsg exView.comps)
        UpcallKind.INTEREST :=
  (C2_filter_dispatch exSt exEnv exMsg exView exFilters).1 (by decide) (by decide)

/-- The overflow guard keeps the record invariant. -/
theorem heal_preserves_inv (nowv : Timeval) (i : ExpressedInterest)
    (h : invInterest i) : invInterest (ccn_age_heal nowv i) := by
  obtain ⟨h1, h2, h3⟩ := h
  unfold ccn_age_heal
  split
  · exact ⟨le_refl 0, show (0 : Int) ≤ i.target by omega, h3⟩
  · exact ⟨h1, h2, h3⟩

/-- `ccn_refresh_interest` keeps the record invariant. -/
theorem refresh_preserves_inv (st : CcnState) (env : Env) (i : ExpressedInterest)
    (h : invInterest i) : invInterest (ccn_refresh_interest st env i).2 := by
  obtain ⟨h1, h2, h3⟩ := h
  simp only [ccn_refresh_interest]
  by_cases hm : i.magic ≠ MAGIC
  · simp only [if_pos hm]
    exact ⟨h1, h2, h3⟩
  · simp only [if_neg hm]
    by_cases hlt : i.outstanding < i.target
    · simp only [if_pos hlt]
      by_cases hr : (ccn_put st env i.interest_msg).2 ≥ 0
      · simp only [if_pos hr]
        exact ⟨show (0 : Int) ≤ i.outstanding + 1 by omega,
               show i.outstanding + 1 ≤ i.target by omega, h3⟩
      · simp only [if_neg hr]
        exact ⟨h1, h2, h3⟩
    · simp only [if_neg hlt]
      exact ⟨h1, h2, h3⟩

/-- `ccn_check_pub_arrival` keeps the record invariant. -/
theorem checkpub_preserves_inv (st : CcnState) (env : Env) (i : ExpressedInterest)
    (h : invInterest i) : invInterest (ccn_check_pub_arrival st env i).2 := by
  obtain ⟨h1, h2, h3⟩ := h
  unfold ccn_check_pub_arrival
  repeat' split
  all_goals first
    | exact ⟨h1, h2, h3⟩
    | (apply refresh_preserves_inv
       unfold invInterest
       simp
       omega)

/-- `ccn_age_interest` keeps the record invariant. -/
theorem age_preserves_inv (st : CcnState) (env : Env) (i : ExpressedInterest)
    (h : invInterest i) : invInterest (ccn_age_interest st env i).2 := by
  obtain ⟨g1, g2, g3⟩ := heal_preserves_inv st.now i h
  simp only [ccn_age_interest]
  repeat' split
  all_goals first
    | exact ⟨g1, g2, g3⟩
    | (apply refresh_preserves_inv
       unfold invInterest at *
       simp_all
       try omega)
    | (unfold invInterest at *
       simp_all
       try omega)

/-- `replace_interest_msg` does not touch the counters. -/
theorem replace_msg_fields (j : ExpressedInterest) (cb : Option (List Nat)) :
    (replace_interest_msg j cb).target = j.target ∧
    (replace_interest_msg j cb).outstanding = j.outstanding := by
  unfold replace_interest_msg
  repeat' split
  all_goals exact ⟨rfl, rfl⟩

/-- The scheduler's per-record body keeps the record invariant. -/
theorem sched_step_preserves_inv (env : Env) (st : CcnState) (i : ExpressedInterest)
    (h : invInterest i) : invInterest (sched_interest_step env st i).2 := by
  have hc := checkpub_preserves_inv st env i h
  simp only [sched_interest_step]
  set q := (if (ccn_check_pub_arrival st env i).2.target ≠ 0 then
      ccn_age_interest (ccn_check_pub_arrival st env i).1 env
        (ccn_check_pub_arrival st env i).2
    else ccn_check_pub_arrival st env i) with hq_def
  have hq : invInterest q.2 := by
    rw [hq_def]
    split
    · exact age_preserves_inv _ env _ hc
    · exact hc
  obtain ⟨a1, a2, a3⟩ := hq
  have hf := replace_msg_fields q.2 none
  split
  · refine ⟨?_, ?_, ?_⟩
    · show (0 : Int) ≤ (replace_interest_msg q.2 none).outstanding
      rw [hf.2]
      exact a1
    · show (replace_interest_msg q.2 none).outstanding ≤ (replace_interest_msg q.2 none).target
      rw [hf.1, hf.2]
      exact a2
    · show (replace_interest_msg q.2 none).target ≤ 1
      rw [hf.1]
      exact a3
  · exact ⟨a1, a2, a3⟩

/-- `registryInv` depends only on the interests registry. -/
theorem registryInv_of_eq (st st2 : CcnState)
    (h : st2.interests_by_pfx = st.interests_by_pfx) (hi : registryInv st) :
    registryInv st2 := by
  unfold registryInv registryRecords at *
  rw [h]
  exact hi

/-- `ccn_pushout` leaves the interests registry untouched. -/
theorem pushout_keeps_registry (st : CcnState) (env : Env) :
    (ccn_pushout st env).1.interests_by_pfx = st.interests_by_pfx := by
  simp only [ccn_pushout, noteErr]
  repeat' split
  all_goals rfl

/-- `ccn_put` leaves the interests registry untouched. -/
theorem put_keeps_registry (st : CcnState) (env : Env) (p : Option (List Nat)) :
    (ccn_put st env p).1.interests_by_pfx = st.interests_by_pfx := by
  simp only [ccn_put, noteErr]
  repeat' split
  all_goals first
    | rfl
    | (rw [pushout_keeps_registry])

/-- `ccn_refresh_interest` leaves the interests registry untouched. -/
theorem refresh_keeps_registry (st : CcnState) (env : Env) (i : ExpressedInterest) :
    (ccn_refresh_interest st env i).1.interests_by_pfx = st.interests_by_pfx := by
  simp only [ccn_refresh_interest]
  repeat' split
  all_goals first
    | rfl
    | (show (ccn_put st env i.interest_msg).1.interests_by_pfx = st.interests_by_pfx
       exact put_keeps_registry st env i.interest_msg)

/-- `ccn_construct_interest` leaves the interests registry untouched. -/
theorem construct_keeps_registry (st : CcnState) (nb : NameBuf) (pc : Int)
    (templ : Option InterestTemplate) :
    (ccn_construct_interest st nb pc templ).1.interests_by_pfx =
      st.interests_by_pfx := by
  simp only [ccn_construct_interest, noteErr]
  repeat' split
  all_goals rfl

/-- `ccn_cache_key` leaves the interests registry untouched. -/
theorem cache_key_keeps_registry (st : CcnState) (env : Env) (pco : ParsedCO) :
    (ccn_cache_key st env pco).1.interests_by_pfx = st.interests_by_pfx := by
  simp only [ccn_cache_key, noteErr]
  repeat' split
  all_goals rfl

/-- `ccn_locate_key` leaves the interests registry untouched. -/
theorem locate_key_keeps_registry (st : CcnState) (env : Env) (pco : ParsedCO) :
    (ccn_locate_key st env pco).1.interests_by_pfx = st.interests_by_pfx := by
  simp only [ccn_locate_key, noteErr]
  repeat' split
  all_goals rfl

/-- Unfolding `recordsOf` over a cons. -/
theorem recordsOf_cons (e : List Nat × List ExpressedInterest)
    (l : List (List Nat × List ExpressedInterest)) :
    recordsOf (e :: l) = e.2 ++ recordsOf l := rfl

/-- Creating an empty bucket adds no records. -/
theorem recordsOf_append_empty (entries : List (List Nat × List ExpressedInterest))
    (k : List Nat) :
    recordsOf (entries ++ [(k, [])]) = recordsOf entries := by
  induction entries with
  | nil => rfl
  | cons e rest ih =>
    rw [List.cons_append, recordsOf_cons, recordsOf_cons, ih]

/-- A record reachable after `insertInterest` is the inserted record or was
already reachable. -/
theorem recordsOf_insert_mem (entries : List (List Nat × List ExpressedInterest))
    (k : List Nat) (i j : ExpressedInterest)
    (hj : j ∈ recordsOf (insertInterest entries k i)) :
    j = i ∨ j ∈ recordsOf entries := by
  induction entries with
  | nil =>
    simp [insertInterest, recordsOf] at hj
    exact Or.inl hj
  | cons e rest ih =>
    unfold insertInterest at hj
    by_cases hk : e.1 = k
    · rw [if_pos hk] at hj
      rw [recordsOf_cons] at hj
      rcases List.mem_append.mp hj with hj | hj
      · rcases List.mem_cons.mp hj with hj | hj
        · exact Or.inl hj
        · exact Or.inr (by rw [recordsOf_cons]; exact List.mem_append_left _ hj)
      · exact Or.inr (by rw [recordsOf_cons]; exact List.mem_append_right _ hj)
    · rw [if_neg hk] at hj
      rw [recordsOf_cons] at hj
      rcases List.mem_append.mp hj with hj | hj
      · exact Or.inr (by rw [recordsOf_cons]; exact List.mem_append_left _ hj)
      · rcases ih hj with hj | hj
        · exact Or.inl hj
        · exact Or.inr (by rw [recordsOf_cons]; exact List.mem_append_right _ hj)

/-- The record freshly created by `ccn_express_interest` satisfies the
invariant. -/
theorem fresh_interest_inv (action : Nat) (m : List Nat) :
    invInterest
      { magic := MAGIC, lasttime := ⟨0, 0⟩, action := some action,
        interest_msg := some m, target := 1, outstanding := 0,
        wanted_pub := none } :=
  ⟨le_refl 0, show (0 : Int) ≤ 1 by norm_num, le_refl 1⟩

/-- With no registry table yet, `ccn_express_interest` behaves as on an
empty table. -/
theorem express_none_table (st : CcnState) (env : Env) (nb : Option NameBuf)
    (pc : Int) (action : Nat) (templ : Option InterestTemplate)
    (hpfx : st.interests_by_pfx = none) :
    ccn_express_interest st env nb pc action templ =
      ccn_express_interest { st with interests_by_pfx := some [] } env nb pc
        action templ := by
  simp only [ccn_express_interest, hpfx]

/-- Core of the C1 express case: with the registry table present, every
record reachable after `ccn_express_interest` satisfies the invariant. -/
theorem express_core_registryInv (st : CcnState) (env : Env) (nbuf : NameBuf)
    (pc : Int) (action : Nat) (templ : Option InterestTemplate)
    (E0 : List (List Nat × List ExpressedInterest))
    (hpfx : st.interests_by_pfx = some E0)
    (h : ∀ j ∈ recordsOf E0, invInterest j) :
    registryInv (ccn_express_interest st env (some nbuf) pc action templ).1 := by
  have hself : registryInv st := by
    show ∀ j ∈ registryRecords st, invInterest j
    intro j hj
    apply h
    unfold registryRecords at hj
    rw [hpfx] at hj
    simpa using hj
  simp only [ccn_express_interest, hpfx, Option.getD_some]
  split
  · exact hself
  · generalize hkey : List.take ((ccn_check_namebuf (some nbuf) pc true).toNat - 1)
      (List.drop 1 nbuf.bytes) = key0
    generalize hE : (if (List.find? (fun e => decide (e.1 = key0)) E0).isSome = true
        then E0 else E0 ++ [(key0, [])]) = E1
    have hE1 : ∀ j ∈ recordsOf E1, invInterest j := by
      rw [← hE]
      split
      · exact h
      · intro j hj
        rw [recordsOf_append_empty] at hj
        exact h j hj
    split
    · apply registryInv_of_eq _ _ (construct_keeps_registry _ _ _ _)
      show ∀ j ∈ registryRecords _, invInterest j
      intro j hj
      apply hE1
      simpa [registryRecords] using hj
    · show ∀ j ∈ registryRecords _, invInterest j
      intro j hj
      unfold registryRecords at hj
      simp only [Option.getD_some] at hj
      rcases recordsOf_insert_mem _ _ _ _ hj with rfl | hmem
      · rename_i m heq
        exact refresh_preserves_inv _ _ _ (fresh_interest_inv action m)
      · rw [refresh_keeps_registry, construct_keeps_registry] at hmem
        simp only [Option.getD_some] at hmem
        exact hE1 j hmem

/-- Claim C1, express case: `ccn_express_interest` preserves the registry
invariant (and the fresh record it adds satisfies it). -/
theorem express_preserves_registryInv (st : CcnState) (env : Env)
    (nb : Option NameBuf) (pc : Int) (action : Nat)
    (templ : Option InterestTemplate) (h : registryInv st) :
    registryInv (ccn_express_interest st env nb pc action templ).1 := by
  have hrecs : ∀ E0, st.interests_by_pfx = some E0 → ∀ j ∈ recordsOf E0, invInterest j := by
    intro E0 hE0 j hj
    apply h
    unfold registryRecords
    rw [hE0]
    simpa using hj
  cases hreg : st.interests_by_pfx with
  | none =>
    rw [express_none_table st env nb pc action templ hreg]
    cases nb with
    | none =>
      have hc : ccn_check_namebuf (none : Option NameBuf) pc true < 0 := by
        show (-1 : Int) < 0
        decide
      intro j hj
      simp only [ccn_express_interest, if_pos hc, registryRecords,
        Option.getD_some] at hj
      simp [recordsOf] at hj
    | some nbuf =>
      exact express_core_registryInv _ env nbuf pc action templ [] rfl
        (by intro j hj; simp [recordsOf] at hj)
  | some E0 =>
    cases nb with
    | none =>
      have hc : ccn_check_namebuf (none : Option NameBuf) pc true < 0 := by
        show (-1 : Int) < 0
        decide
      intro j hj
      simp only [ccn_express_interest, hreg, if_pos hc, registryRecords,
        Option.getD_some] at hj
      exact hrecs E0 hreg j hj
    | some nbuf =>
      exact express_core_registryInv st env nbuf pc action templ E0 hreg
        (hrecs E0 hreg)

/-- `ccn_initiate_key_fetch` preserves the registry invariant (the
sub-Interest it may express is created by `ccn_express_interest`). -/
theorem keyfetch_preserves_registryInv (st : CcnState) (env : Env)
    (pco : ParsedCO) (trigger : ExpressedInterest) (h : registryInv st) :
    registryInv (ccn_initiate_key_fetch st env pco trigger).1 := by
  unfold ccn_initiate_key_fetch
  cases hk : pco.keyNameBuf with
  | none => exact h
  | some knb => exact express_preserves_registryInv _ env _ _ _ _ h

/-- The trigger Interest parked by `ccn_initiate_key_fetch` satisfies the
record invariant once nothing is outstanding. -/
theorem keyfetch_trigger_inv (st : CcnState) (env : Env) (pco : ParsedCO)
    (trigger : ExpressedInterest) (h0 : 0 ≤ trigger.outstanding)
    (h1 : trigger.outstanding ≤ 0) :
    invInterest (ccn_initiate_key_fetch st env pco trigger).2.1 := by
  unfold ccn_initiate_key_fetch
  cases hp : pco.pubDigest <;> cases hk : pco.keyNameBuf <;>
    exact ⟨h0, h1, show (0 : Int) ≤ 1 by norm_num⟩

/-- A retired record (target zeroed, message and action nulled) satisfies
the record invariant once nothing is outstanding. -/
theorem retire_record_inv (j : ExpressedInterest) (h0 : 0 ≤ j.outstanding)
    (h1 : j.outstanding ≤ 0) :
    invInterest
      { replace_interest_msg { j with target := 0 } none with action := none } := by
  have hf := replace_msg_fields { j with target := 0 } none
  refine ⟨?_, ?_, ?_⟩
  · show (0 : Int) ≤ (replace_interest_msg { j with target := 0 } none).outstanding
    rw [hf.2]
    exact h0
  · show (replace_interest_msg { j with target := 0 } none).outstanding ≤
      (replace_interest_msg { j with target := 0 } none).target
    rw [hf.1, hf.2]
    exact h1
  · show (replace_interest_msg { j with target := 0 } none).target ≤ 1
    rw [hf.1]
    show (0 : Int) ≤ 1
    norm_num

/-- The per-record dispatch body keeps the record invariant. -/
theorem dispatch_step_preserves_inv (st : CcnState) (env : Env)
    (pco : ParsedCO) (i : ExpressedInterest) (h : invInterest i) :
    invInterest (ccn_dispatch_content_step st env pco i).2 := by
  obtain ⟨h1, h2, h3⟩ := h
  simp only [ccn_dispatch_content_step]
  split
  case isFalse => exact ⟨h1, h2, h3⟩
  case isTrue hguard =>
    split
    case isFalse => exact ⟨h1, h2, h3⟩
    case isTrue hmatch =>
      generalize (if ccn_get_content_type pco.contentType = CCN_CONTENT_KEY then
          (ccn_cache_key st env pco).1 else st) = st1
      generalize ccn_locate_key st1 env pco = r
      generalize (if r.2.1 = 0 then
          if env.verifySignature (r.2.2.getD 0) = 1 then UpcallKind.CONTENT
          else UpcallKind.CONTENT_BAD
        else UpcallKind.CONTENT_UNVERIFIED) = kind0
      generalize env.upcallRes (i.action.getD 0) kind0 = ures0
      split
      · apply refresh_preserves_inv
        exact ⟨show (0 : Int) ≤ i.outstanding - 1 by omega,
               show i.outstanding - 1 ≤ i.target by omega, h3⟩
      · split
        · exact keyfetch_trigger_inv _ env pco { i with outstanding := i.outstanding - 1 }
            (show (0 : Int) ≤ i.outstanding - 1 by omega)
            (show i.outstanding - 1 ≤ 0 by omega)
        · exact retire_record_inv { i with outstanding := i.outstanding - 1 }
            (show (0 : Int) ≤ i.outstanding - 1 by omega)
            (show i.outstanding - 1 ≤ 0 by omega)

/-- The per-record dispatch body preserves the registry invariant. -/
theorem dispatch_step_preserves_registryInv (st : CcnState) (env : Env)
    (pco : ParsedCO) (i : ExpressedInterest) (h : registryInv st) :
    registryInv (ccn_dispatch_content_step st env pco i).1 := by
  simp only [ccn_dispatch_content_step]
  split
  case isFalse => exact h
  case isTrue =>
    split
    case isFalse => exact h
    case isTrue =>
      have hmid1 : registryInv
          (if ccn_get_content_type pco.contentType = CCN_CONTENT_KEY then
            (ccn_cache_key st env pco).1
           else st) := by
        split
        · exact registryInv_of_eq _ _ (cache_key_keeps_registry _ _ _) h
        · exact h
      generalize hG : (if ccn_get_content_type pco.contentType = CCN_CONTENT_KEY then
          (ccn_cache_key st env pco).1 else st) = st1 at hmid1 ⊢
      have hmid : registryInv (ccn_locate_key st1 env pco).1 :=
        registryInv_of_eq _ _ (locate_key_keeps_registry _ _ _) hmid1
      generalize hL : ccn_locate_key st1 env pco = r at hmid ⊢
      generalize (if r.2.1 = 0 then
          if env.verifySignature (r.2.2.getD 0) = 1 then UpcallKind.CONTENT
          else UpcallKind.CONTENT_BAD
        else UpcallKind.CONTENT_UNVERIFIED) = kind0
      generalize env.upcallRes (i.action.getD 0) kind0 = ures0
      split
      · exact registryInv_of_eq _ _ (refresh_keeps_registry _ _ _) hmid
      · split
        · exact keyfetch_preserves_registryInv _ _ _ _ hmid
        · exact hmid

/-- The scheduler's list pass keeps every record's invariant. -/
theorem sched_list_inv (env : Env) (l : List ExpressedInterest) :
    ∀ (st : CcnState), (∀ j ∈ l, invInterest j) →
      ∀ j ∈ (sched_list env st l).2.1, invInterest j := by
  induction l with
  | nil =>
    intro st hl j hj
    simp [sched_list] at hj
  | cons a rest ih =>
    intro st hl j hj
    simp only [sched_list] at hj
    rcases List.mem_cons.mp hj with rfl | hj2
    · exact sched_step_preserves_inv env st a (hl a (List.mem_cons_self a rest))
    · exact ih _ (fun x hx => hl x (List.mem_cons_of_mem a hx)) j hj2

/-- The scheduler's bucket pass keeps every record's invariant. -/
theorem sched_entries_inv (env : Env)
    (entries : List (List Nat × List ExpressedInterest)) :
    ∀ (st : CcnState), (∀ j ∈ recordsOf entries, invInterest j) →
      ∀ j ∈ recordsOf (sched_entries env st entries).2.1, invInterest j := by
  induction entries with
  | nil =>
    intro st hl j hj
    simp [sched_entries, recordsOf] at hj
  | cons e rest ih =>
    intro st hl j hj
    simp only [sched_entries] at hj
    split at hj
    · rename_i he
      rw [recordsOf_cons] at hj
      rcases List.mem_append.mp hj with hj2 | hj2
      · rw [he] at hj2
        simp at hj2
      · exact ih st
          (fun x hx => hl x (by rw [recordsOf_cons]; exact List.mem_append_right _ hx))
          j hj2
    · rename_i he
      rw [recordsOf_cons] at hj
      rcases List.mem_append.mp hj with hj2 | hj2
      · exact sched_list_inv env e.2 st
          (fun x hx => hl x (by rw [recordsOf_cons]; exact List.mem_append_left _ hx))
          j hj2
      · exact ih _
          (fun x hx => hl x (by rw [recordsOf_cons]; exact List.mem_append_right _ hx))
          j hj2

/-- Records surviving a bucket filter were already reachable. -/
theorem recordsOf_filter_sub (p : (List Nat × List ExpressedInterest) → Bool)
    (l : List (List Nat × List ExpressedInterest)) (j : ExpressedInterest)
    (hj : j ∈ recordsOf (l.filter p)) : j ∈ recordsOf l := by
  induction l with
  | nil => simp [recordsOf] at hj
  | cons e rest ih =>
    rw [List.filter_cons] at hj
    rw [recordsOf_cons]
    by_cases hp : p e = true
    · rw [if_pos hp, recordsOf_cons] at hj
      rcases List.mem_append.mp hj with hj | hj
      · exact List.mem_append_left _ hj
      · exact List.mem_append_right _ (ih hj)
    · rw [if_neg hp] at hj
      exact List.mem_append_right _ (ih hj)

/-- Records surviving the per-bucket record filter were already reachable. -/
theorem recordsOf_mapfilter_sub (q : ExpressedInterest → Bool)
    (l : List (List Nat × List ExpressedInterest)) (j : ExpressedInterest)
    (hj : j ∈ recordsOf (l.map (fun e => (e.1, e.2.filter q)))) :
    j ∈ recordsOf l := by
  induction l with
  | nil => simp [recordsOf] at hj
  | cons e rest ih =>
    rw [List.map_cons, recordsOf_cons] at hj
    rw [recordsOf_cons]
    rcases List.mem_append.mp hj with hj | hj
    · exact List.mem_append_left _ (List.mem_of_mem_filter hj)
    · exact List.mem_append_right _ (ih hj)

/-- Sweeping only removes records. -/
theorem sweep_records_sub (entries : List (List Nat × List ExpressedInterest))
    (j : ExpressedInterest)
    (hj : j ∈ recordsOf (ccn_sweep_all_interests entries)) :
    j ∈ recordsOf entries := by
  unfold ccn_sweep_all_interests at hj
  exact recordsOf_mapfilter_sub _ _ _ (recordsOf_filter_sub _ _ _ hj)

/-- Claim C1, scheduler case: `ccn_process_scheduled_operations` preserves
the registry invariant. -/
theorem sched_preserves_registryInv (st : CcnState) (env : Env)
    (h : registryInv st) :
    registryInv (ccn_process_scheduled_operations st env).1 := by
  simp only [ccn_process_scheduled_operations]
  split
  · exact registryInv_of_eq _ _ rfl h
  · cases hreg : st.interests_by_pfx with
    | none =>
      simp only [hreg]
      exact registryInv_of_eq _ _ (by simp [hreg]) h
    | some entries =>
      simp only [hreg]
      show ∀ j ∈ registryRecords _, invInterest j
      intro j hj
      unfold registryRecords at hj
      simp only [Option.getD_some] at hj
      have hrec : ∀ x ∈ recordsOf entries, invInterest x := by
        intro x hx
        apply h
        unfold registryRecords
        rw [hreg]
        simpa using hx
      split at hj
      · exact sched_entries_inv env entries _ hrec j (sweep_records_sub _ _ hj)
      · exact sched_entries_inv env entries _ hrec j hj

/-- Claim C1: for every Interest record reachable from the
interests-by-prefix registry, `0 ≤ outstanding ≤ target ≤ 1` holds, and the
operations that touch Interest records preserve it: `ccn_refresh_interest`
on a record, `ccn_express_interest` on the whole registry (including the
fresh record it links), the per-record ContentObject dispatch body of
`ccn_dispatch_message` (lines 994-1036) — both the record it rewrites and
the registry state it returns, including any key-fetch sub-Interest it
expresses — `ccn_age_interest`, `ccn_check_pub_arrival`, and the whole
scheduler pass `ccn_process_scheduled_operations` (which runs the latter two
over every record and sweeps dead ones). -/
theorem C1_outstanding_target_invariant (st : CcnState) (env : Env)
    (i : ExpressedInterest) (pco : ParsedCO) (nb : Option NameBuf) (pc : Int)
    (action : Nat) (templ : Option InterestTemplate) :
    (invInterest i → invInterest (ccn_refresh_interest st env i).2)
  ∧ (registryInv st →
      registryInv (ccn_express_interest st env nb pc action templ).1)
  ∧ (invInterest i → invInterest (ccn_dispatch_content_step st env pco i).2)
  ∧ (registryInv st → registryInv (ccn_dispatch_content_step st env pco i).1)
  ∧ (invInterest i → invInterest (ccn_age_interest st env i).2)
  ∧ (invInterest i → invInterest (ccn_check_pub_arrival st env i).2)
  ∧ (registryInv st → registryInv (ccn_process_scheduled_operations st env).1) :=
  ⟨refresh_preserves_inv st env i,
   express_preserves_registryInv st env nb pc action templ,
   dispatch_step_preserves_inv st env pco i,
   dispatch_step_preserves_registryInv st env pco i,
   age_preserves_inv st env i,
   checkpub_preserves_inv st env i,
   sched_preserves_registryInv st env⟩

/-- Witness for C1 at concrete states: a refreshed record, an expressed
Interest, a dispatched record, and a scheduler pass all satisfy the
invariant. -/
theorem C1_outstanding_target_invariant_witness :
    invInterest (ccn_refresh_interest st0 env0 cexInterest).2 ∧
    registryInv (ccn_express_interest st0 env0 (some cexName) 3 7 none).1 ∧
    invInterest (ccn_dispatch_content_step st0 env0
      { pubDigest := some [7], pubDigestErr := 0, contentType := 0,
        coDigest := [], contentValue := none, hasKeyLocator := false,
        locator := LocatorTag.other, keyBytes := [], keyNameBuf := none,
        keyNamePub := none } cexInterest).2 ∧
    registryInv (ccn_process_scheduled_operations st0 env0).1 := by
  have h := C1_outstanding_target_invariant st0 env0 cexInterest
    { pubDigest := some [7], pubDigestErr := 0, contentType := 0,
      coDigest := [], contentValue := none, hasKeyLocator := false,
      locator := LocatorTag.other, keyBytes := [], keyNameBuf := none,
      keyNamePub := none } (some cexName) 3 7 none
  exact ⟨h.1 (by decide), h.2.1 (by decide), h.2.2.1 (by decide),
         h.2.2.2.2.2.2 (by decide)⟩
